import Mathlib

/-!
# Verification of `lie-vae` (Chenxingyu1990/lie-vae)

Shallow embedding, in Lean 4, of the parts of the repository that the
claims C1..C10 are about:

* `lie_vae/datasets.py` — `ShapeDataset` indexing, `filename_to_quaternion`,
  `filename_to_name`, `__getitem__`;
* `lie_vae/main.py` — the experiment construction (loss components passed to
  the experiment) and the training loop with early stopping;
* `supervised_experiment.py` — `Encoder`, `DeconvNet`, `ActionNet`, `MLPNet`
  at the level of tensor shapes, and the Rodrigues rotation construction.

Functions of the repository that are not in the three source files
(`lie_vae.lie_tools`, `lie_vae.utils`, `lie_vae.experiments`) are modelled
from the specification; their doc comments say so explicitly.  Machine
floats are idealised as rationals (exact decimal parsing) or reals
(trigonometry); shapes of tensors are lists of naturals, and operations
that can raise in PyTorch/Python return `Option`/`Except`.
-/

/-! ## Python `re` model for the two regexes of `datasets.py`

`filename_to_quaternion` uses `re.findall(r'-?[01]\.[0-9]{4}', filename)`;
`filename_to_name` uses `re.search(r'([A-z0-9]+)\.obj', filename)`.
We implement both scanners directly over `List Char`. -/

/-- Match the regex core `[01]\.[0-9]{4}` at the head of the character list.
On success, return the matched characters and the remaining characters. -/
def matchQuatCore : List Char → Option (List Char × List Char)
  | b :: '.' :: d1 :: d2 :: d3 :: d4 :: rest =>
    if (b = '0' ∨ b = '1') ∧ d1.isDigit ∧ d2.isDigit ∧ d3.isDigit ∧ d4.isDigit then
      some ([b, '.', d1, d2, d3, d4], rest)
    else none
  | _ => none

/-- Match `-?[01]\.[0-9]{4}` at the head of the character list.  When the head
is `'-'` the alternative without the sign cannot match either (a `'-'` is not
in `[01]`), so no further backtracking is needed. -/
def matchQuatAt : List Char → Option (List Char × List Char)
  | '-' :: rest => (matchQuatCore rest).map (fun p => ('-' :: p.1, p.2))
  | cs => matchQuatCore cs

/-- Fueled scanner for `re.findall(r'-?[01]\.[0-9]{4}', ·)`: scan left to
right, taking non-overlapping leftmost matches.  Every step consumes at least
one character, so `cs.length` fuel suffices. -/
def reFindallQuatFuel : Nat → List Char → List (List Char)
  | 0, _ => []
  | _ + 1, [] => []
  | fuel + 1, c :: t =>
    match matchQuatAt (c :: t) with
    | some (m, rest) => m :: reFindallQuatFuel fuel rest
    | none => reFindallQuatFuel fuel t

/-- The scan `re.findall(r'-?[01]\.[0-9]{4}', ·)` over a character list. -/
def reFindallQuat (cs : List Char) : List (List Char) :=
  reFindallQuatFuel cs.length cs

/-- The declarative reading of the token pattern: an optional minus sign, a
digit `0` or `1`, a dot, and exactly four decimal digits. -/
def isQuatToken (m : List Char) : Bool :=
  match m with
  | '-' :: core => isQuatTokenCore core
  | core => isQuatTokenCore core
where
  isQuatTokenCore : List Char → Bool
  | [b, '.', d1, d2, d3, d4] =>
    (b = '0' ∨ b = '1') ∧ d1.isDigit ∧ d2.isDigit ∧ d3.isDigit ∧ d4.isDigit
  | _ => false

theorem matchQuatCore_token {cs m rest} (h : matchQuatCore cs = some (m, rest)) :
    isQuatToken.isQuatTokenCore m = true := by
  unfold matchQuatCore at h
  split at h
  · split at h
    · rename_i hcond
      cases h
      simpa [isQuatToken.isQuatTokenCore] using hcond
    · simp at h
  · simp at h

theorem matchQuatCore_head {cs m rest} (h : matchQuatCore cs = some (m, rest)) :
    ∀ t, m ≠ '-' :: t := by
  unfold matchQuatCore at h
  split at h
  · split at h
    · rename_i hcond
      cases h
      intro t hcontra
      have h1 : _ = '-' := List.head_eq_of_cons_eq hcontra
      rcases hcond.1 with hb | hb <;> rw [hb] at h1 <;> exact absurd h1 (by decide)
    · simp at h
  · simp at h

theorem isQuatTokenCore_not_dash {m : List Char}
    (hc : isQuatToken.isQuatTokenCore m = true) (hm : ∀ t, m ≠ '-' :: t) :
    isQuatToken m = true := by
  unfold isQuatToken
  split
  · rename_i core
    exact absurd rfl (hm core)
  · exact hc

theorem matchQuatAt_token {cs m rest} (h : matchQuatAt cs = some (m, rest)) :
    isQuatToken m = true := by
  unfold matchQuatAt at h
  split at h
  · rename_i rest0
    rcases ho : matchQuatCore rest0 with _ | ⟨m0, r0⟩ <;> rw [ho] at h
    · simp at h
    · simp only [Option.map_some'] at h
      cases h
      have hc := matchQuatCore_token ho
      simpa [isQuatToken] using hc
  · exact isQuatTokenCore_not_dash (matchQuatCore_token h) (matchQuatCore_head h)

theorem reFindallQuatFuel_tokens (fuel : Nat) :
    ∀ cs, ∀ m ∈ reFindallQuatFuel fuel cs, isQuatToken m = true := by
  induction fuel with
  | zero => intro cs m hm; simp [reFindallQuatFuel] at hm
  | succ f ih =>
    intro cs m hm
    rcases cs with _ | ⟨c, t⟩
    · simp [reFindallQuatFuel] at hm
    · rw [reFindallQuatFuel] at hm
      rcases h : matchQuatAt (c :: t) with _ | ⟨m0, rest⟩ <;> rw [h] at hm
      · exact ih t m hm
      · rcases List.mem_cons.mp hm with h1 | h2
        · subst h1
          exact matchQuatAt_token h
        · exact ih rest m h2

/-- Every string `re.findall` returns matches the token pattern. -/
theorem reFindallQuat_tokens (cs : List Char) :
    ∀ m ∈ reFindallQuat cs, isQuatToken m = true :=
  reFindallQuatFuel_tokens cs.length cs

/-! ## `filename_to_quaternion` (datasets.py lines 52-56, supervised_experiment.py lines 66-71) -/

/-- The Python exception kinds this development distinguishes. -/
inductive PyError where
  | assertionError
  | importError
  | typeError
  | keyError
  | runtimeError
  | indexError
deriving DecidableEq, Repr

/-- Numeric value of a decimal digit character. -/
def digitVal (c : Char) : Nat := c.toNat - '0'.toNat

/-- Exact value of a matched token `-?[01].dddd` as a rational (Python's
`float` of such a text, idealised without binary rounding). -/
def quatFloatVal : List Char → ℚ
  | '-' :: core => -(quatCoreVal core)
  | core => quatCoreVal core
where
  quatCoreVal : List Char → ℚ
  | [b, _, d1, d2, d3, d4] =>
    (digitVal b : ℚ) +
      ((1000 * digitVal d1 + 100 * digitVal d2 + 10 * digitVal d3 + digitVal d4 : Nat) : ℚ) / 10000
  | _ => 0

/-- Model of `ShapeDataset.filename_to_quaternion`: find all `-?[01]\.[0-9]{4}` tokens,
assert there are exactly four, return their float values. -/
def filename_to_quaternion (filename : List Char) : Except PyError (List ℚ) :=
  let ms := reFindallQuat filename
  if ms.length = 4 then Except.ok (ms.map quatFloatVal)
  else Except.error PyError.assertionError

/-- C9: for every filename, `filename_to_quaternion` returns, in order of
occurrence, the floats of the token matches (each an optional minus sign, a
digit 0 or 1, a dot, and exactly four digits), and raises `AssertionError`
if and only if the number of matches differs from four. -/
theorem C9_filename_to_quaternion (filename : List Char) :
    (∀ m ∈ reFindallQuat filename, isQuatToken m = true) ∧
    (filename_to_quaternion filename = Except.error PyError.assertionError ↔
      (reFindallQuat filename).length ≠ 4) ∧
    ((reFindallQuat filename).length = 4 →
      filename_to_quaternion filename = Except.ok ((reFindallQuat filename).map quatFloatVal)) := by
  refine ⟨reFindallQuat_tokens filename, ?_, ?_⟩
  · by_cases h : (reFindallQuat filename).length = 4 <;> simp [filename_to_quaternion, h]
  · intro h
    simp [filename_to_quaternion, h]

/-- Witness for C9 on the demo filename from `supervised_experiment.py`. -/
theorem C9_filename_to_quaternion_witness :
    filename_to_quaternion
        (String.toList ("chair.obj_0.0336_-0.1523_-0.5616_-0.8126.jpg")) =
      Except.ok [336 / 10000, -(1523 / 10000), -(5616 / 10000), -(8126 / 10000)] := by
  have h := (C9_filename_to_quaternion
    (String.toList ("chair.obj_0.0336_-0.1523_-0.5616_-0.8126.jpg"))).2.2 (by decide)
  rw [h]
  have hm : reFindallQuat (String.toList ("chair.obj_0.0336_-0.1523_-0.5616_-0.8126.jpg")) =
      [['0', '.', '0', '3', '3', '6'], ['-', '0', '.', '1', '5', '2', '3'],
       ['-', '0', '.', '5', '6', '1', '6'], ['-', '0', '.', '8', '1', '2', '6']] := by
    decide
  rw [hm]
  simp only [List.map]
  rw [show quatFloatVal ['0', '.', '0', '3', '3', '6'] =
        ((0 : Nat) : ℚ) + ((336 : Nat) : ℚ) / 10000 from rfl,
      show quatFloatVal ['-', '0', '.', '1', '5', '2', '3'] =
        -(((0 : Nat) : ℚ) + ((1523 : Nat) : ℚ) / 10000) from rfl,
      show quatFloatVal ['-', '0', '.', '5', '6', '1', '6'] =
        -(((0 : Nat) : ℚ) + ((5616 : Nat) : ℚ) / 10000) from rfl,
      show quatFloatVal ['-', '0', '.', '8', '1', '2', '6'] =
        -(((0 : Nat) : ℚ) + ((8126 : Nat) : ℚ) / 10000) from rfl]
  norm_num

/-! ## `ShapeDataset` indexing (datasets.py lines 14-34) -/

/-- Whether a string starts with `'/'` (the absolute-path test of
`os.path.join`). -/
def startsWithSlash (s : String) : Bool :=
  match s.data with
  | '/' :: _ => true
  | _ => false

/-- Whether a string ends with `'/'`. -/
def endsWithSlash (s : String) : Bool :=
  match s.data.getLast? with
  | some '/' => true
  | _ => false

/-- Python `os.path.join(a, b)` (POSIX, two components): an absolute `b`
discards `a`; otherwise a separator is inserted unless `a` is empty or ends
with one. -/
def ospathJoin (a b : String) : String :=
  if startsWithSlash b then b
  else if a = "" ∨ endsWithSlash a then a ++ b
  else a ++ "/" ++ b

/-- Split a character list on newline characters. -/
def splitOnNl : List Char → List (List Char)
  | [] => [[]]
  | '\n' :: t => [] :: splitOnNl t
  | c :: t =>
    match splitOnNl t with
    | h :: r => (c :: h) :: r
    | [] => [[c]]

/-- Python `str.splitlines` (newline separators only): split on `'\n'`,
without a trailing empty piece for a trailing newline. -/
def pySplitlines (s : String) : List String :=
  let ps := splitOnNl s.data
  if ps.getLast? = some [] then (ps.dropLast).map String.mk else ps.map String.mk

/-- The file-system facts `ShapeDataset.__init__` consults: existence of a
path, contents of a readable file, and the sorted result of
`glob(os.path.join(directory, '**/*.jpg'), recursive=True)`. -/
structure FS where
  pathExists : String → Bool
  readFile : String → String
  globJpgRecursive : String → List String

/-- The state `ShapeDataset.__init__` (datasets.py lines 18-27) leaves behind. -/
structure ShapeDatasetState where
  directory : String
  files : List String
  root : Option String
deriving Repr, DecidableEq

/-- Model of `ShapeDataset.__init__`: prefer an explicit `files.txt` index over the
recursive glob. -/
def ShapeDataset.init (fs : FS) (directory : String) : ShapeDatasetState :=
  let index_path := ospathJoin directory ("files.txt")
  if fs.pathExists index_path then
    { directory := directory,
      files := pySplitlines (fs.readFile index_path),
      root := some directory }
  else
    { directory := directory,
      files := fs.globJpgRecursive directory,
      root := none }

/-- Python truthiness of `self.root` (`None` and the empty string are falsy). -/
def rootTruthy : Option String → Bool
  | none => false
  | some s => s ≠ ""

/-- The path `__getitem__` opens for a list entry `filename`
(datasets.py line 34). -/
def ShapeDataset.itemPath (st : ShapeDatasetState) (filename : String) : String :=
  if rootTruthy st.root then ospathJoin (st.root.getD ("")) filename else filename

theorem ospathJoin_empty_left (b : String) : ospathJoin ("") b = b := by
  unfold ospathJoin
  split
  · rfl
  · rw [if_pos (Or.inl rfl)]
    rfl

/-- C7: `ShapeDataset` prefers an explicit index file over globbing: when
`files.txt` exists in the directory the file list is exactly its lines and
each item path is the line joined onto the directory; otherwise the list is
the recursive glob of `**/*.jpg` and each entry is used as a path unchanged. -/
theorem C7_shapeDataset_indexing (fs : FS) (directory : String) :
    (fs.pathExists (ospathJoin directory ("files.txt")) = true →
      (ShapeDataset.init fs directory).files =
        pySplitlines (fs.readFile (ospathJoin directory ("files.txt"))) ∧
      ∀ filename, ShapeDataset.itemPath (ShapeDataset.init fs directory) filename =
        ospathJoin directory filename) ∧
    (fs.pathExists (ospathJoin directory ("files.txt")) = false →
      (ShapeDataset.init fs directory).files = fs.globJpgRecursive directory ∧
      ∀ filename, ShapeDataset.itemPath (ShapeDataset.init fs directory) filename =
        filename) := by
  constructor
  · intro h
    constructor
    · simp [ShapeDataset.init, h]
    · intro filename
      simp only [ShapeDataset.init, h, if_true]
      by_cases hd : directory = ""
      · subst hd
        simp [ShapeDataset.itemPath, rootTruthy, ospathJoin_empty_left]
      · simp [ShapeDataset.itemPath, rootTruthy, hd]
  · intro h
    constructor
    · simp [ShapeDataset.init, h]
    · intro filename
      simp [ShapeDataset.init, h, ShapeDataset.itemPath, rootTruthy]

/-- A concrete file system for the C7 witness: `files.txt` always exists and
holds two lines. -/
def fsWitnessC7 : FS :=
  { pathExists := fun _ => true,
    readFile := fun _ => "a.jpg\nb.jpg\n",
    globJpgRecursive := fun _ => [] }

/-- Witness for C7: on a file system where the index file exists, the file
list is its lines and item paths are joined onto the directory. -/
theorem C7_shapeDataset_indexing_witness :
    (ShapeDataset.init fsWitnessC7 ("data/chairs/ten")).files = ["a.jpg", "b.jpg"] ∧
    ShapeDataset.itemPath (ShapeDataset.init fsWitnessC7 ("data/chairs/ten")) "a.jpg" =
      "data/chairs/ten/a.jpg" := by
  have h := (C7_shapeDataset_indexing fsWitnessC7 ("data/chairs/ten")).1 rfl
  refine ⟨?_, ?_⟩
  · rw [h.1]
    rfl
  · rw [h.2 ("a.jpg")]
    rfl

/-! ## The epoch loop of `main` with early stopping (main.py lines 132-146)

Each epoch runs `experiment.train(epoch)`; with a save directory configured,
the model is saved when `max_early_stop` is `None` or `best_value` changed,
otherwise the early-stop counter grows until it reaches `max_early_stop` and
the loop breaks.  We model a run by the list `changes` of per-epoch booleans
recording whether `experiment.best_value` changed during that epoch's
training (the experiment class itself is not under `src/`; the tracked best
value changes exactly on improving epochs). -/

/-- Outcome of the epoch loop: how many epochs ran `experiment.train`, which
of them wrote a checkpoint, and the final early-stop counter. -/
structure LoopResult where
  trained : Nat
  saves : List Bool
  counter : Nat
deriving Repr, DecidableEq

def trainLoop (saveDir : Bool) (mES : Option Nat) : List Bool → Nat → LoopResult
  | [], c => ⟨0, [], c⟩
  | ch :: rest, c =>
    match saveDir, mES, ch with
    | true, none, _ =>
      let r := trainLoop true none rest c
      ⟨r.trained + 1, true :: r.saves, r.counter⟩
    | true, some _, true =>
      let r := trainLoop saveDir mES rest c
      ⟨r.trained + 1, true :: r.saves, r.counter⟩
    | true, some k, false =>
      if c < k then
        let r := trainLoop saveDir mES rest (c + 1)
        ⟨r.trained + 1, false :: r.saves, r.counter⟩
      else
        ⟨1, [false], c⟩
    | false, _, _ =>
      let r := trainLoop saveDir mES rest c
      ⟨r.trained + 1, false :: r.saves, r.counter⟩

def specStopLen (k : Nat) : List Bool → Nat
  | [] => 0
  | ch :: rest =>
    if ch then 1 + specStopLen k rest
    else if k = 0 then 1 else 1 + specStopLen (k - 1) rest

theorem trainLoop_counter_mono (saveDir : Bool) (mES : Option Nat) :
    ∀ (changes : List Bool) (c : Nat), c ≤ (trainLoop saveDir mES changes c).counter := by
  intro changes
  induction changes with
  | nil => intro c; simp [trainLoop]
  | cons ch rest ih =>
    intro c
    rcases saveDir with _ | _ <;> rcases mES with _ | k <;> rcases ch with _ | _ <;>
      simp only [trainLoop] <;> try exact ih c
    · split
      · exact le_trans (Nat.le_succ c) (ih (c + 1))
      · simp
  
theorem trainLoop_trained_eq (k : Nat) :
    ∀ (changes : List Bool) (c : Nat), c ≤ k →
      (trainLoop true (some k) changes c).trained = specStopLen (k - c) changes := by
  intro changes
  induction changes with
  | nil => intro c _; simp [trainLoop, specStopLen]
  | cons ch rest ih =>
    intro c hc
    rcases ch with _ | _
    · simp only [trainLoop, specStopLen]
      by_cases hlt : c < k
      · have h0 : ¬(k - c = 0) := by omega
        have h1 : k - c - 1 = k - (c + 1) := by omega
        rw [if_pos hlt, if_neg h0, h1]
        simp [ih (c + 1) hlt, Nat.add_comm]
      · have h0 : k - c = 0 := by omega
        rw [if_neg hlt, if_pos h0]
        simp
    · simp only [trainLoop, specStopLen, if_true]
      simp [ih c hc, Nat.add_comm]

theorem specStopLen_spec (changes : List Bool) :
    ∀ k : Nat,
      (specStopLen k changes = changes.length ∧ changes.count false ≤ k) ∨
      (∃ i, ∃ hi : i < changes.length,
        specStopLen k changes = i + 1 ∧
        changes.get ⟨i, hi⟩ = false ∧
        (changes.take i).count false = k) := by
  induction changes with
  | nil => intro k; left; simp [specStopLen]
  | cons ch rest ih =>
    intro k
    rcases ch with _ | _
    · rcases Nat.eq_zero_or_pos k with hk | hk
      · subst hk
        right
        exact ⟨0, by simp, by simp [specStopLen], rfl, by simp⟩
      · rcases ih (k - 1) with ⟨h1, h2⟩ | ⟨i, hi, h1, h2, h3⟩
        · left
          constructor
          · simp [specStopLen, Nat.pos_iff_ne_zero.mp hk, h1]
            omega
          · simp [List.count_cons]
            omega
        · right
          refine ⟨i + 1, by simpa using hi, ?_, by simpa using h2, ?_⟩
          · simp [specStopLen, Nat.pos_iff_ne_zero.mp hk, h1]
            omega
          · simp only [List.take_succ_cons]
            simp [List.count_cons, h3]
            omega
    · rcases ih k with ⟨h1, h2⟩ | ⟨i, hi, h1, h2, h3⟩
      · left
        constructor
        · simp [specStopLen, h1]
          omega
        · simpa using h2
      · right
        refine ⟨i + 1, by simpa using hi, ?_, by simpa using h2, ?_⟩
        · simp [specStopLen, h1]
          omega
        · simpa using h3

theorem trainLoop_saves_some (k : Nat) :
    ∀ (changes : List Bool) (c : Nat),
      (trainLoop true (some k) changes c).saves =
        changes.take (trainLoop true (some k) changes c).trained := by
  intro changes
  induction changes with
  | nil => intro c; simp [trainLoop]
  | cons ch rest ih =>
    intro c
    rcases ch with _ | _
    · simp only [trainLoop]
      by_cases hlt : c < k
      · rw [if_pos hlt]
        simp [ih (c + 1)]
      · rw [if_neg hlt]
        simp
    · simp only [trainLoop]
      simp [ih c]

theorem trainLoop_saves_none :
    ∀ (changes : List Bool) (c : Nat),
      (trainLoop true none changes c).saves = List.replicate changes.length true := by
  intro changes
  induction changes with
  | nil => intro c; simp [trainLoop]
  | cons ch rest ih =>
    intro c
    rcases ch with _ | _ <;> simp [trainLoop, ih c, List.replicate]

/-- C10: in `main`'s training loop the early-stop counter never decreases
(so it is never reset by an improving epoch); with a save directory and
`max_early_stop = k`, the loop stops with the first non-improving epoch that
is preceded by `k` cumulative non-improving epochs — improvements in between
notwithstanding — and runs all epochs when no such epoch exists; and a
checkpoint is written exactly on the epochs whose training changed the
tracked best value, or on every epoch when `max_early_stop` is `None`. -/
theorem C10_early_stopping (k : Nat) (changes : List Bool) :
    (∀ (saveDir : Bool) (mES : Option Nat) (c : Nat),
        c ≤ (trainLoop saveDir mES changes c).counter) ∧
    ((trainLoop true (some k) changes 0).saves =
        changes.take (trainLoop true (some k) changes 0).trained) ∧
    ((trainLoop true none changes 0).saves =
        List.replicate changes.length true) ∧
    (((trainLoop true (some k) changes 0).trained = changes.length ∧
        changes.count false ≤ k) ∨
      (∃ i, ∃ hi : i < changes.length,
        (trainLoop true (some k) changes 0).trained = i + 1 ∧
        changes.get ⟨i, hi⟩ = false ∧
        (changes.take i).count false = k)) := by
  refine ⟨fun s m c => trainLoop_counter_mono s m changes c,
          trainLoop_saves_some k changes 0,
          trainLoop_saves_none changes 0, ?_⟩
  have h := trainLoop_trained_eq k changes 0 (Nat.zero_le k)
  rw [h, Nat.sub_zero]
  exact specStopLen_spec changes k

/-! ## Dataset dispatch of `main` and the missing imports
(main.py lines 11-13 and 32-51; datasets.py class definitions) -/

/-- The class names `lie_vae/datasets.py` defines. -/
def datasetsModuleNames : List String :=
  ["ShapeDataset", "NamedDataset", "SelectedDataset", "ObjectsDataset",
   "ThreeObjectsDataset", "HumanoidDataset", "ColorHumanoidDataset",
   "SingleChairDataset", "CubeDataset"]

/-- The names `lie_vae/main.py` imports from `lie_vae.datasets`
(main.py lines 11-13). -/
def mainDatasetImports : List String :=
  ["SelectedDataset", "ObjectsDataset", "ThreeObjectsDataset",
   "HumanoidDataset", "ColorHumanoidDataset", "SingleChairDataset",
   "SphereCubeDataset", "ToyDataset"]

/-- Keyword parameters (besides `self`) accepted by each dataset constructor
defined in `datasets.py`. -/
def datasetInitParams : String → List String
  | "ShapeDataset" => ["directory"]
  | "CubeDataset" => ["mode"]
  | _ => []

/-- A Python call with the given keyword arguments: it succeeds only when
every keyword is a declared parameter, and raises `TypeError` otherwise. -/
def callWithKwargs (cls : String) (kwargs : List String) : Except PyError Unit :=
  if kwargs.all (fun kw => (datasetInitParams cls).contains kw) then Except.ok ()
  else Except.error PyError.typeError

/-- Importing `lie_vae.main` first resolves its
`from lie_vae.datasets import ...` line; a requested name the module does not
define raises `ImportError`. -/
def importMainModule : Except PyError Unit :=
  if mainDatasetImports.all (fun n => datasetsModuleNames.contains n) then Except.ok ()
  else Except.error PyError.importError

/-- The dataset dispatch of `main` (main.py lines 32-51), on the `--dataset`
argument, as it would run once the names were bound. -/
def mainConstructDataset (dataset : String) : Except PyError Unit :=
  if dataset = "objects" then callWithKwargs ("ObjectsDataset") []
  else if dataset = "objects3" then callWithKwargs ("ThreeObjectsDataset") []
  else if dataset = "chairs" then callWithKwargs ("SelectedDataset") []
  else if dataset = "humanoid" then callWithKwargs ("HumanoidDataset") ["subsample"]
  else if dataset = "chumanoid" then callWithKwargs ("ColorHumanoidDataset") ["subsample"]
  else if dataset = "single" then callWithKwargs ("SingleChairDataset") ["subsample"]
  else if dataset = "spherecube" then callWithKwargs ("SphereCubeDataset") ["subsample"]
  else if dataset = "toy" then callWithKwargs ("ToyDataset") []
  else Except.error PyError.runtimeError

/-- Running `main` with a given `--dataset` value: the module import runs
before any of `main`'s body. -/
def runMainDataset (dataset : String) : Except PyError Unit := do
  importMainModule
  mainConstructDataset dataset

/-- C8 counterexample: running `main` with `--dataset humanoid` does not
raise `TypeError`: the module import fails first, with `ImportError`, because
`SphereCubeDataset` and `ToyDataset` are not defined in `lie_vae.datasets`. -/
theorem C8_counterexample_humanoid :
    runMainDataset ("humanoid") = Except.error PyError.importError ∧
    (Except.error PyError.importError : Except PyError Unit) ≠
      Except.error PyError.typeError := by
  exact ⟨rfl, by simp⟩

/-- C8 (amended): importing `lie_vae.main` raises `ImportError` — it requests
`SphereCubeDataset` and `ToyDataset`, which `lie_vae.datasets` does not
define — so every dataset choice is unreachable; and the dataset dispatch
itself, were the import fixed, would raise `TypeError` for `'humanoid'`,
`'chumanoid'` and `'single'` because `main` passes a `subsample` keyword that
those constructors do not accept. -/
theorem C8_dataset_dispatch :
    (∀ dataset, runMainDataset dataset = Except.error PyError.importError) ∧
    (datasetsModuleNames.contains ("SphereCubeDataset") = false ∧
     datasetsModuleNames.contains ("ToyDataset") = false) ∧
    (mainConstructDataset ("humanoid") = Except.error PyError.typeError ∧
     mainConstructDataset ("chumanoid") = Except.error PyError.typeError ∧
     mainConstructDataset ("single") = Except.error PyError.typeError) := by
  exact ⟨fun _ => rfl, ⟨by decide, by decide⟩, rfl, rfl, rfl⟩

/-! ## `MLPNet` (supervised_experiment.py lines 179-212) -/

/-- The rotation-feature representations `MLPNet.forward` can feed its MLP:
the flattened 3x3 group matrix, the quaternion given by
`group_matrix_to_quaternions`, or the ZYZ Euler angles given by
`group_matrix_to_eazyz`. -/
inductive RotFeature where
  | matFlatten
  | quaternions
  | eazyz
deriving DecidableEq, Repr

/-- Per-sample feature width of each representation: 9 for a flattened 3x3
matrix, 4 for a quaternion, 3 for ZYZ Euler angles. -/
def RotFeature.dims : RotFeature → Nat
  | .matFlatten => 3 * 3
  | .quaternions => 4
  | .eazyz => 3

/-- The dispatch in `MLPNet.forward` (lines 201-206): `'MAT'` flattens the
matrix, `'Q'` converts to quaternions, anything else extracts Euler angles. -/
def MLPNet.forwardFeature (mode : String) : RotFeature :=
  if mode = "MAT" then RotFeature.matFlatten
  else if mode = "Q" then RotFeature.quaternions
  else RotFeature.eazyz

/-- The `{'MAT': 9, 'Q': 4, 'EA': 3}[mode]` dictionary lookup of
`MLPNet.__init__` (line 186); a missing key raises `KeyError`. -/
def MLPNet.modeDims (mode : String) : Except PyError Nat :=
  if mode = "MAT" then Except.ok 9
  else if mode = "Q" then Except.ok 4
  else if mode = "EA" then Except.ok 3
  else Except.error PyError.keyError

/-- What `MLPNet.__init__` records: the mode, the MLP input and output
widths, and the `single_id` flag. -/
structure MLPNetState where
  mode : String
  mlp_in_dims : Nat
  mlp_out_dims : Nat
  single_id : Bool
deriving Repr, DecidableEq

/-- Model of `MLPNet.__init__` (lines 181-193): look up the feature width for the
mode, add `id_dims` when not `single_id`, and build
`MLP(dims, matrix_dims * data_dims, 50, 3)`. -/
def MLPNet.init (degrees data_dims : Nat) (mode : String) (id_dims : Nat)
    (single_id : Bool) : Except PyError MLPNetState :=
  let matrix_dims := (degrees + 1) ^ 2
  match MLPNet.modeDims mode with
  | Except.error e => Except.error e
  | Except.ok d =>
    Except.ok
      { mode := mode,
        mlp_in_dims := d + (if single_id then 0 else id_dims),
        mlp_out_dims := matrix_dims * data_dims,
        single_id := single_id }

/-- C5: `MLPNet` extracts the rotation representation by mode — `'MAT'`
flattens the 3x3 matrix to 9 features, `'Q'` uses the 4-component quaternion,
and any other mode uses the 3 ZYZ Euler angles — and for every state its
constructor accepts, the MLP input width is the feature width (9, 4 or 3)
plus `id_dims` when `single_id` is false. -/
theorem C5_mlpnet_modes (degrees data_dims id_dims : Nat) (single_id : Bool)
    (mode : String) :
    (MLPNet.forwardFeature ("MAT") = RotFeature.matFlatten ∧
     MLPNet.forwardFeature ("Q") = RotFeature.quaternions ∧
     (mode ≠ "MAT" → mode ≠ "Q" → MLPNet.forwardFeature mode = RotFeature.eazyz)) ∧
    (∀ st, MLPNet.init degrees data_dims mode id_dims single_id = Except.ok st →
      st.mlp_in_dims =
        (MLPNet.forwardFeature mode).dims + (if single_id then 0 else id_dims)) := by
  refine ⟨⟨rfl, rfl, ?_⟩, ?_⟩
  · intro h1 h2
    simp [MLPNet.forwardFeature, h1, h2]
  · intro st hst
    by_cases h1 : mode = "MAT"
    · subst h1
      have hred : MLPNet.init degrees data_dims ("MAT") id_dims single_id =
          Except.ok { mode := "MAT",
                      mlp_in_dims := 9 + (if single_id then 0 else id_dims),
                      mlp_out_dims := (degrees + 1) ^ 2 * data_dims,
                      single_id := single_id } := rfl
      rw [hred, Except.ok.injEq] at hst
      rw [← hst]
      rfl
    · by_cases h2 : mode = "Q"
      · subst h2
        have hred : MLPNet.init degrees data_dims ("Q") id_dims single_id =
            Except.ok { mode := "Q",
                        mlp_in_dims := 4 + (if single_id then 0 else id_dims),
                        mlp_out_dims := (degrees + 1) ^ 2 * data_dims,
                        single_id := single_id } := rfl
        rw [hred, Except.ok.injEq] at hst
        rw [← hst]
        rfl
      · by_cases h3 : mode = "EA"
        · subst h3
          have hred : MLPNet.init degrees data_dims ("EA") id_dims single_id =
              Except.ok { mode := "EA",
                          mlp_in_dims := 3 + (if single_id then 0 else id_dims),
                          mlp_out_dims := (degrees + 1) ^ 2 * data_dims,
                          single_id := single_id } := rfl
          rw [hred, Except.ok.injEq] at hst
          rw [← hst]
          simp [MLPNet.forwardFeature, h1, h2, RotFeature.dims]
        · have hred : MLPNet.init degrees data_dims mode id_dims single_id =
              Except.error PyError.keyError := by
            simp [MLPNet.init, MLPNet.modeDims, h1, h2, h3]
          rw [hred] at hst
          exact absurd hst (by simp)

/-- Witness for C5: mode `'EA'` with `single_id = False` and 10 id dims gives
an MLP input width of 3 + 10. -/
theorem C5_mlpnet_modes_witness :
    ∃ st, MLPNet.init 3 10 ("EA") 10 false = Except.ok st ∧ st.mlp_in_dims = 13 := by
  refine ⟨⟨"EA", 13, 160, false⟩, rfl, ?_⟩
  have h := (C5_mlpnet_modes 3 10 10 false ("EA")).2 ⟨"EA", 13, 160, false⟩ rfl
  exact h.trans rfl

/-! ## Tensor shapes of the networks (supervised_experiment.py lines 88-212)

Shapes are lists of naturals; shape-changing PyTorch operations are modelled
as `Shape → Option Shape`, `none` standing for a runtime error. -/

/-- A tensor shape. -/
abbrev Shape := List Nat

/-- Output spatial size of `nn.Conv2d`: `(h + 2p - k) / s + 1`. -/
def convOutDim (h k s p : Nat) : Nat := (h + 2 * p - k) / s + 1

/-- Shape action of `nn.Conv2d(cin, cout, k, s, p)` on a 4-D input. -/
def conv2dShape (cin cout k s p : Nat) : Shape → Option Shape
  | [n, c, h, w] =>
    if c = cin ∧ k ≤ h + 2 * p ∧ k ≤ w + 2 * p then
      some [n, cout, convOutDim h k s p, convOutDim w k s p]
    else none
  | _ => none

/-- Shape action of `nn.ConvTranspose2d(cin, cout, k, s, p)` on a 4-D input:
spatial size `(h - 1)s + k - 2p`. -/
def convT2dShape (cin cout k s p : Nat) : Shape → Option Shape
  | [n, c, h, w] =>
    if c = cin ∧ 1 ≤ h ∧ 1 ≤ w ∧
        2 * p + 1 ≤ (h - 1) * s + k ∧ 2 * p + 1 ≤ (w - 1) * s + k then
      some [n, cout, (h - 1) * s + k - 2 * p, (w - 1) * s + k - 2 * p]
    else none
  | _ => none

/-- Shape action of `DeconvNet(in_dims, hidden_dims)` (lines 124-137): five transposed
convolutions with kernel 4 and strides 1, 2, 2, 2, 2 (ReLU layers do not
change shapes). -/
def DeconvNet.shape (in_dims hidden_dims : Nat) (s : Shape) : Option Shape :=
  (convT2dShape in_dims hidden_dims 4 1 0 s).bind
    (fun s1 => (convT2dShape hidden_dims hidden_dims 4 2 1 s1).bind
      (fun s2 => (convT2dShape hidden_dims hidden_dims 4 2 1 s2).bind
        (fun s3 => (convT2dShape hidden_dims hidden_dims 4 2 1 s3).bind
          (fun s4 => convT2dShape hidden_dims 1 4 2 1 s4))))

/-- The convolutional stack of `Encoder.__init__` (lines 94-112): five
convolutions `1 → h → 2h → 4h → 8h → nout` with kernel 4, strides
2, 2, 2, 2, 1 and paddings 1, 1, 1, 1, 0. -/
def Encoder.convShape (hidden_dims nout : Nat) (s : Shape) : Option Shape :=
  (conv2dShape 1 hidden_dims 4 2 1 s).bind
    (fun s1 => (conv2dShape hidden_dims (hidden_dims * 2) 4 2 1 s1).bind
      (fun s2 => (conv2dShape (hidden_dims * 2) (hidden_dims * 4) 4 2 1 s2).bind
        (fun s3 => (conv2dShape (hidden_dims * 4) (hidden_dims * 8) 4 2 1 s3).bind
          (fun s4 => conv2dShape (hidden_dims * 8) nout 4 1 0 s4))))

theorem deconvNetShape_eval (n in_dims hidden_dims : Nat) :
    DeconvNet.shape in_dims hidden_dims [n, in_dims, 1, 1] = some [n, 1, 64, 64] := by
  simp [DeconvNet.shape, convT2dShape]

theorem encoderConvShape_eval (n hidden_dims nout : Nat) :
    Encoder.convShape hidden_dims nout [n, 1, 64, 64] = some [n, nout, 1, 1] := by
  simp [Encoder.convShape, conv2dShape, convOutDim]

/-- Modelled from the spec: `group_matrix_to_eazyz` of `lie_vae.lie_tools`
(not under `src/`) converts a batch of rotation matrices, shape `[n, 3, 3]`,
to ZYZ Euler angles, shape `[n, 3]`.  Shape-level model. -/
def eazyzShape : Shape → Option Shape
  | [n, 3, 3] => some [n, 3]
  | _ => none

/-- Modelled from the spec: `group_matrix_to_quaternions` of
`lie_vae.lie_tools` (not under `src/`) converts rotation matrices `[n, 3, 3]`
to quaternions `[n, 4]`.  Shape-level model. -/
def quaternionsShape : Shape → Option Shape
  | [n, 3, 3] => some [n, 4]
  | _ => none

/-- Modelled from the spec: `block_wigner_matrix_multiply(angles, data,
max_degree)` of `lie_vae.lie_tools` (not under `src/`) applies the block
Wigner D-matrix of the Euler angles `[n, 3]` degree-wise to the
spherical-harmonic coefficients `[n, (max_degree+1)^2, d]`, preserving their
shape.  Shape-level model. -/
def blockWignerShape (max_degree : Nat) : Shape → Shape → Option Shape
  | [n, 3], [n2, m, d] =>
    if n = n2 ∧ m = (max_degree + 1) ^ 2 then some [n2, m, d] else none
  | _, _ => none

/-- Modelled from the spec: the `MLP` of `lie_vae.utils` (not under `src/`)
maps `[n, in_dims]` to `[n, out_dims]`.  Shape-level model. -/
def mlpShape (in_dims out_dims : Nat) : Shape → Option Shape
  | [n, i] => if i = in_dims then some [n, out_dims] else none
  | _ => none

/-- Shape action of `Tensor.view(-1, k)`: PyTorch infers the leading
dimension as `numel / k` and errors unless `k` divides the element count. -/
def view2Shape (k : Nat) (s : Shape) : Option Shape :=
  if k ≠ 0 ∧ s.prod % k = 0 then some [s.prod / k, k] else none

/-- Shape action of `item_rep.expand(n, -1, -1)` on the `[m, d]` parameter tensor. -/
def expandShape (n : Nat) : Shape → Option Shape
  | [m, d] => some [n, m, d]
  | _ => none

/-- Shape action of `item[:, :, None, None]`. -/
def unsqueeze2Shape : Shape → Option Shape
  | [n, f] => some [n, f, 1, 1]
  | _ => none

/-- Shape action of `out[:, 0, :, :]` (needs a nonempty channel dimension). -/
def select1Shape : Shape → Option Shape
  | [n, c, h, w] => if 1 ≤ c then some [n, h, w] else none
  | _ => none

/-- Model of `ActionNet.forward` (lines 158-176), single-id path, at the level of
shapes: expand the item representation over the batch, convert the matrices
to ZYZ Euler angles, act by block Wigner multiplication at `degrees`, flatten
with `view(-1, matrix_dims * data_dims)`, run the deconvolution, and take
channel 0. -/
def ActionNet.forwardShape (degrees data_dims : Nat)
    (deconv : Shape → Option Shape) (matrices : Shape) : Option Shape :=
  let matrix_dims := (degrees + 1) ^ 2
  match matrices with
  | n :: rest =>
    (expandShape n [matrix_dims, data_dims]).bind
      (fun harmonics => (eazyzShape (n :: rest)).bind
        (fun angles => (blockWignerShape degrees angles harmonics).bind
          (fun item => (view2Shape (matrix_dims * data_dims) item).bind
            (fun item2 => (unsqueeze2Shape item2).bind
              (fun inp => (deconv inp).bind select1Shape)))))
  | _ => none

/-- Model of `MLPNet.forward` (lines 195-212), single-id path, at the level of shapes:
extract the mode's rotation features, run the MLP, the deconvolution, and
take channel 0. -/
def MLPNet.forwardShape (mode : String) (mlp_in mlp_out : Nat)
    (deconv : Shape → Option Shape) (r : Shape) : Option Shape :=
  let x := if mode = "MAT" then view2Shape 9 r
           else if mode = "Q" then quaternionsShape r
           else eazyzShape r
  x.bind (fun xs => (mlpShape mlp_in mlp_out xs).bind
    (fun ys => (unsqueeze2Shape ys).bind
      (fun inp => (deconv inp).bind select1Shape)))

theorem view2Shape_eval (n m d : Nat) (h : 0 < m * d) :
    view2Shape (m * d) [n, m, d] = some [n, m * d] := by
  unfold view2Shape
  have hprod : ([n, m, d] : Shape).prod = n * (m * d) := by
    simp [List.prod, Nat.mul_assoc]
  rw [if_pos]
  · rw [hprod, Nat.mul_div_cancel _ h]
  · exact ⟨Nat.pos_iff_ne_zero.mp h, by rw [hprod]; exact Nat.mul_mod_left _ _⟩

theorem actionNetForwardShape_eq (n degrees data_dims : Nat)
    (deconv : Shape → Option Shape) (hd : 0 < data_dims) :
    ActionNet.forwardShape degrees data_dims deconv [n, 3, 3] =
      (deconv [n, (degrees + 1) ^ 2 * data_dims, 1, 1]).bind select1Shape := by
  have hmd : 0 < (degrees + 1) ^ 2 * data_dims :=
    Nat.mul_pos (Nat.pos_pow_of_pos 2 (Nat.succ_pos degrees)) hd
  unfold ActionNet.forwardShape
  simp only [expandShape, eazyzShape, Option.bind_some, Option.some_bind]
  rw [show blockWignerShape degrees [n, 3] [n, (degrees + 1) ^ 2, data_dims] =
        some [n, (degrees + 1) ^ 2, data_dims] from by
      simp [blockWignerShape]]
  simp only [Option.some_bind]
  rw [view2Shape_eval n _ _ hmd]
  simp [unsqueeze2Shape]

/-- C1: for every batch of rotation matrices of shape `[batch, 3, 3]`,
`ActionNet.forward` computes the decoder signal by first converting the
matrices to ZYZ Euler angles (`group_matrix_to_eazyz`), then acting on the
spherical-harmonic coefficient tensor by block Wigner D-matrix multiplication
at the configured number of degrees, and flattening the result to
`(degrees+1)^2 * data_dims` features per batch element before the
deconvolutional network. -/
theorem C1_actionNet_pipeline (n degrees data_dims : Nat)
    (deconv : Shape → Option Shape) (hd : 0 < data_dims) :
    eazyzShape [n, 3, 3] = some [n, 3] ∧
    blockWignerShape degrees [n, 3] [n, (degrees + 1) ^ 2, data_dims] =
      some [n, (degrees + 1) ^ 2, data_dims] ∧
    view2Shape ((degrees + 1) ^ 2 * data_dims) [n, (degrees + 1) ^ 2, data_dims] =
      some [n, (degrees + 1) ^ 2 * data_dims] ∧
    ActionNet.forwardShape degrees data_dims deconv [n, 3, 3] =
      (deconv [n, (degrees + 1) ^ 2 * data_dims, 1, 1]).bind select1Shape := by
  have hmd : 0 < (degrees + 1) ^ 2 * data_dims :=
    Nat.mul_pos (Nat.pos_pow_of_pos 2 (Nat.succ_pos degrees)) hd
  exact ⟨rfl, by simp [blockWignerShape], view2Shape_eval n _ _ hmd,
         actionNetForwardShape_eq n degrees data_dims deconv hd⟩

/-- Witness for C1: batch 2, degrees 1, one data dimension, identity deconv. -/
theorem C1_actionNet_pipeline_witness :
    ActionNet.forwardShape 1 1 some [2, 3, 3] = some [2, 1, 1] := by
  have h := (C1_actionNet_pipeline 2 1 1 some (by decide)).2.2.2
  rw [h]
  rfl

theorem mlpNetForwardShape_eq (n mlp_out : Nat) (mode : String)
    (deconv : Shape → Option Shape)
    (hmode : mode = "MAT" ∨ mode = "Q" ∨ mode = "EA") :
    MLPNet.forwardShape mode (MLPNet.forwardFeature mode).dims mlp_out deconv
        [n, 3, 3] =
      (deconv [n, mlp_out, 1, 1]).bind select1Shape := by
  rcases hmode with h | h | h <;> subst h
  · unfold MLPNet.forwardShape
    rw [if_pos rfl]
    have h9 : view2Shape 9 [n, 3, 3] = some [n, 9] := by
      unfold view2Shape
      have hp : ([n, 3, 3] : Shape).prod = n * 9 := by
        simp [List.prod_cons, List.prod_nil]
      rw [if_pos ⟨by decide, by rw [hp]; exact Nat.mul_mod_left _ _⟩, hp,
        Nat.mul_div_cancel _ (by decide : 0 < 9)]
    rw [h9]
    simp [mlpShape, unsqueeze2Shape, MLPNet.forwardFeature, RotFeature.dims]
  · unfold MLPNet.forwardShape
    rw [if_neg (by decide), if_pos rfl]
    simp [quaternionsShape, mlpShape, unsqueeze2Shape, MLPNet.forwardFeature,
      RotFeature.dims]
  · unfold MLPNet.forwardShape
    rw [if_neg (by decide), if_neg (by decide)]
    simp [eazyzShape, mlpShape, unsqueeze2Shape, MLPNet.forwardFeature,
      RotFeature.dims]

/-- C6: the decoder reproduces the encoder's spatial size: `DeconvNet` maps
any `(in_dims, 1, 1)` input through its five transposed convolutions (kernel
4, strides 1,2,2,2,2) to a single-channel 64x64 output, the `Encoder`'s
convolutional stack maps single-channel 64x64 inputs to `(nout, 1, 1)`, and
for every rotation batch `[n, 3, 3]` both `ActionNet.forward` and
`MLPNet.forward` return tensors of shape `[n, 64, 64]`. -/
theorem C6_decoder_output_size (n degrees data_dims deconv_hidden enc_hidden
    nout : Nat) (hd : 0 < data_dims) :
    (∀ in_dims, DeconvNet.shape in_dims deconv_hidden [n, in_dims, 1, 1] =
      some [n, 1, 64, 64]) ∧
    Encoder.convShape enc_hidden nout [n, 1, 64, 64] = some [n, nout, 1, 1] ∧
    ActionNet.forwardShape degrees data_dims
        (DeconvNet.shape ((degrees + 1) ^ 2 * data_dims) deconv_hidden)
        [n, 3, 3] =
      some [n, 64, 64] ∧
    (∀ mode, (mode = "MAT" ∨ mode = "Q" ∨ mode = "EA") →
      MLPNet.forwardShape mode (MLPNet.forwardFeature mode).dims
          ((degrees + 1) ^ 2 * data_dims)
          (DeconvNet.shape ((degrees + 1) ^ 2 * data_dims) deconv_hidden)
          [n, 3, 3] =
        some [n, 64, 64]) := by
  refine ⟨fun in_dims => deconvNetShape_eval n in_dims deconv_hidden,
          encoderConvShape_eval n enc_hidden nout, ?_, ?_⟩
  · rw [actionNetForwardShape_eq n degrees data_dims _ hd, deconvNetShape_eval]
    rfl
  · intro mode hmode
    rw [mlpNetForwardShape_eq n _ mode _ hmode, deconvNetShape_eval]
    rfl

/-- Witness for C6 at the defaults of `supervised_experiment.py`
(batch 7, degrees 3, 10 data dims, 50 hidden): both decoders produce
`[7, 64, 64]`. -/
theorem C6_decoder_output_size_witness :
    ActionNet.forwardShape 3 10 (DeconvNet.shape 160 50) [7, 3, 3] =
      some [7, 64, 64] ∧
    MLPNet.forwardShape ("Q") 4 160 (DeconvNet.shape 160 50) [7, 3, 3] =
      some [7, 64, 64] := by
  have h := C6_decoder_output_size 7 3 10 50 50 3 (by decide)
  exact ⟨h.2.2.1, h.2.2.2 ("Q") (Or.inr (Or.inl rfl))⟩

/-! ## Loss components `main` passes to the experiment (main.py lines 110-130) -/

/-- Modelled from the spec: `LinearSchedule(start_y, end_y, start_x, end_x)`
of `lie_vae.utils` (not under `src/`): a regularizer weight following a
linear schedule from `start_y` to `end_y` between iterations `start_x` and
`end_x`. -/
structure LinearSchedule where
  start_y : ℝ
  end_y : ℝ
  start_x : ℕ
  end_x : ℕ

/-- Modelled from the spec: the scheduled weight at iteration `t` — the
clamped linear interpolation between the endpoints. -/
noncomputable def LinearSchedule.valueAt (s : LinearSchedule) (t : ℕ) : ℝ :=
  if t ≤ s.start_x then s.start_y
  else if s.end_x ≤ t then s.end_y
  else s.start_y + (s.end_y - s.start_y) *
    (((t : ℝ) - (s.start_x : ℝ)) / ((s.end_x : ℝ) - (s.start_x : ℝ)))

/-- The argparse values of `main.py` that decide the loss composition. -/
structure LossArgs where
  equivariance : Option ℝ
  equivariance_end_it : ℕ
  continuity : Option ℝ
  continuity_iscale : ℝ

/-- The loss-relevant keyword arguments `main` passes to the experiment it
constructs (main.py lines 115-130). -/
structure ExperimentCfg where
  beta_schedule : ℕ → ℝ
  equivariance_lamb : Option LinearSchedule
  continuity_lamb : Option ℝ
  continuity_scale : ℝ

/-- main.py lines 110-130: the equivariance weight is
`LinearSchedule(0, args.equivariance, 1000, args.equivariance_end_it)` when
`--equivariance` is given and absent otherwise; the continuity strength is
`args.continuity` and its scale `2*pi/args.continuity_iscale`. -/
noncomputable def mainExperimentCfg (args : LossArgs) (betaS : ℕ → ℝ) : ExperimentCfg :=
  { beta_schedule := betaS,
    equivariance_lamb := args.equivariance.map
      (fun strength => ⟨0, strength, 1000, args.equivariance_end_it⟩),
    continuity_lamb := args.continuity,
    continuity_scale := 2 * Real.pi / args.continuity_iscale }

/-- Modelled from the spec: the VAE training loss composition
"reconstruction + KL + equivariance + continuity" — the KL term weighted by
the beta schedule, the equivariance penalty by its scheduled weight when
configured (absent otherwise), and the continuity penalty by its strength. -/
noncomputable def trainingLoss (cfg : ExperimentCfg) (it : ℕ)
    (recon kl eq cont : ℝ) : ℝ :=
  recon + cfg.beta_schedule it * kl +
    (match cfg.equivariance_lamb with
     | some s => s.valueAt it * eq
     | none => 0) +
    (match cfg.continuity_lamb with
     | some l => l * cont
     | none => 0)

/-- C2: `main` passes exactly these loss components to the experiment: the
beta schedule weighting the KL term, an equivariance weight following a
linear schedule from 0 to the given strength between iteration 1000 and
`equivariance_end_it` (absent when `--equivariance` is not given), the
continuity strength `--continuity`, and the continuity scale
`2*pi/continuity_iscale`. -/
theorem C2_loss_composition (args : LossArgs) (betaS : ℕ → ℝ) (it : ℕ)
    (recon kl eq cont : ℝ) :
    ((mainExperimentCfg args betaS).beta_schedule = betaS) ∧
    ((mainExperimentCfg args betaS).continuity_lamb = args.continuity) ∧
    ((mainExperimentCfg args betaS).continuity_scale =
      2 * Real.pi / args.continuity_iscale) ∧
    (args.equivariance = none →
      (mainExperimentCfg args betaS).equivariance_lamb = none ∧
      trainingLoss (mainExperimentCfg args betaS) it recon kl eq cont =
        recon + betaS it * kl +
          (match args.continuity with | some l => l * cont | none => 0)) ∧
    (∀ strength, args.equivariance = some strength →
      (mainExperimentCfg args betaS).equivariance_lamb =
        some ⟨0, strength, 1000, args.equivariance_end_it⟩ ∧
      (∀ t, t ≤ 1000 →
        LinearSchedule.valueAt ⟨0, strength, 1000, args.equivariance_end_it⟩ t = 0) ∧
      (∀ t, 1000 < t → args.equivariance_end_it ≤ t →
        LinearSchedule.valueAt ⟨0, strength, 1000, args.equivariance_end_it⟩ t =
          strength) ∧
      (∀ t, 1000 < t → t < args.equivariance_end_it →
        LinearSchedule.valueAt ⟨0, strength, 1000, args.equivariance_end_it⟩ t =
          strength * (((t : ℝ) - 1000) / ((args.equivariance_end_it : ℝ) - 1000))) ∧
      trainingLoss (mainExperimentCfg args betaS) it recon kl eq cont =
        recon + betaS it * kl +
          LinearSchedule.valueAt ⟨0, strength, 1000, args.equivariance_end_it⟩ it * eq +
          (match args.continuity with | some l => l * cont | none => 0)) := by
  refine ⟨rfl, rfl, rfl, ?_, ?_⟩
  · intro h
    constructor
    · simp [mainExperimentCfg, h]
    · simp [trainingLoss, mainExperimentCfg, h]
  · intro strength h
    refine ⟨by simp [mainExperimentCfg, h], ?_, ?_, ?_, ?_⟩
    · intro t ht
      simp [LinearSchedule.valueAt, ht]
    · intro t ht1 ht2
      simp [LinearSchedule.valueAt, ht2]
      omega
    · intro t ht1 ht2
      rw [LinearSchedule.valueAt]
      rw [if_neg (by simpa using ht1), if_neg (by simpa using Nat.not_le.mpr ht2)]
      push_cast
      ring
    · simp [trainingLoss, mainExperimentCfg, h]

/-- Witness for C2: strength 1 between iterations 1000 and 2000, evaluated
at iteration 1500, with continuity strength 1/2. -/
theorem C2_loss_composition_witness :
    trainingLoss
        (mainExperimentCfg ⟨some 1, 2000, some (1 / 2), 200⟩ (fun _ => 1))
        1500 1 1 1 1 =
      1 + 1 * 1 + (1 : ℝ) * (((1500 : ℝ) - 1000) / ((2000 : ℝ) - 1000)) * 1 +
        (1 / 2) * 1 := by
  have h := (C2_loss_composition ⟨some 1, 2000, some (1 / 2), 200⟩
    (fun _ => 1) 1500 1 1 1 1).2.2.2.2 1 rfl
  rw [h.2.2.2.2, h.2.2.2.1 1500 (by norm_num) (by norm_num)]
  norm_num

/-! ## `ShapeDataset.__getitem__` (datasets.py lines 32-50) -/

/-- The character class `[A-z0-9]` of the object-id regex (ASCII `A`..`z`,
which also covers brackets, backslash, caret, underscore and backtick, plus
the digits). -/
def isObjNameChar (c : Char) : Bool :=
  ('A' ≤ c ∧ c ≤ 'z') ∨ ('0' ≤ c ∧ c ≤ '9')

/-- Maximal run of `[A-z0-9]` characters at the head, and the remainder. -/
def takeNameRun : List Char → List Char × List Char
  | [] => ([], [])
  | c :: t =>
    if isObjNameChar c then
      let p := takeNameRun t
      (c :: p.1, p.2)
    else ([], c :: t)

/-- The scan `re.search(r'([A-z0-9]+)\.obj', ·)`: positions left to right; a
match needs a nonempty class run followed immediately by `.obj` (a shorter
greedy run cannot help, since the class excludes `'.'`), and the capture
group is the run. -/
def searchObjName : List Char → Option (List Char)
  | [] => none
  | c :: t =>
    if isObjNameChar c then
      let p := takeNameRun (c :: t)
      if p.2.take 4 = ['.', 'o', 'b', 'j'] then some p.1 else searchObjName t
    else searchObjName t

/-- Model of `ShapeDataset.filename_to_name` (datasets.py lines 58-63): the captured
object id, or `AssertionError` when the pattern does not occur. -/
def filename_to_name (cs : List Char) : Except PyError String :=
  match searchObjName cs with
  | some run => Except.ok (String.mk run)
  | none => Except.error PyError.assertionError

/-- Torch dtypes this development distinguishes. -/
inductive DType where
  | float32
  | float64
deriving DecidableEq, Repr

/-- A value tagged with its torch dtype (`torch.tensor(x, dtype=...)`). -/
structure Tagged (β : Type) where
  dtype : DType
  val : β
deriving Repr

/-- The image-tensor operations `__getitem__` uses, abstracted over the image
representation: loading (`np.array(Image.open(path))` as a tensor), division
by 255, `dim()`, `.mean(-1)`, `.unsqueeze(0)` and `.permute(2, 0, 1)`. -/
structure ImageOps (α : Type) where
  load : String → α
  div255 : α → α
  dim : α → Nat
  meanLast : α → α
  unsqueeze0 : α → α
  permute201 : α → α

/-- Model of `ShapeDataset.__getitem__` (datasets.py lines 32-50), abstracted over the
image representation `α` and over `lie_learn`'s
`SO3.change_coordinates(q, 'Q', 'MAT')` (an external library), here
`so3QtoMat : List ℚ → β`. -/
def ShapeDataset.getitem {α β : Type} (ops : ImageOps α)
    (so3QtoMat : List ℚ → β) (rgb : Bool) (st : ShapeDatasetState)
    (idx : Nat) : Except PyError (String × Tagged β × α) :=
  match st.files.get? idx with
  | none => Except.error PyError.indexError
  | some filename =>
    let path := ShapeDataset.itemPath st filename
    let image_tensor := ops.div255 (ops.load path)
    match filename_to_quaternion filename.data with
    | Except.error e => Except.error e
    | Except.ok quaternion =>
      let image_tensor2 :=
        if !rgb then
          ops.unsqueeze0
            (if ops.dim image_tensor = 3 then ops.meanLast image_tensor
             else image_tensor)
        else ops.permute201 image_tensor
      let group_el : Tagged β := ⟨DType.float32, so3QtoMat quaternion⟩
      match filename_to_name filename.data with
      | Except.error e => Except.error e
      | Except.ok name => Except.ok (name, group_el, image_tensor2)

/-- C3: for every item whose filename parses to a quaternion (and carries an
object id), `__getitem__` returns as its group element the rotation matrix
obtained by converting the parsed four-component quaternion from `'Q'` to
`'MAT'` coordinates, tagged float32; the returned triple is the object name,
that matrix, and the processed image — the quaternion itself is never
returned. -/
theorem C3_getitem_group_element {α β : Type} (ops : ImageOps α)
    (so3QtoMat : List ℚ → β) (rgb : Bool) (st : ShapeDatasetState) (idx : Nat)
    (filename : String) (hfile : st.files.get? idx = some filename)
    (q : List ℚ) (hq : filename_to_quaternion filename.data = Except.ok q)
    (name : String) (hname : filename_to_name filename.data = Except.ok name) :
    ShapeDataset.getitem ops so3QtoMat rgb st idx =
      Except.ok (name, ⟨DType.float32, so3QtoMat q⟩,
        if !rgb then
          ops.unsqueeze0
            (if ops.dim (ops.div255 (ops.load (ShapeDataset.itemPath st filename))) = 3
             then ops.meanLast (ops.div255 (ops.load (ShapeDataset.itemPath st filename)))
             else ops.div255 (ops.load (ShapeDataset.itemPath st filename)))
        else ops.permute201 (ops.div255 (ops.load (ShapeDataset.itemPath st filename)))) := by
  unfold ShapeDataset.getitem
  rw [hfile]
  simp only [hq, hname]

/-- Trivial image operations over `Nat` for the C3 witness. -/
def imageOpsNat : ImageOps Nat :=
  { load := fun _ => 5, div255 := fun x => x, dim := fun _ => 3,
    meanLast := fun x => x, unsqueeze0 := fun x => x, permute201 := fun x => x }

/-- Witness for C3: the demo chair filename yields the object id `chair` and
a float32-tagged group element computed from its parsed quaternion. -/
theorem C3_getitem_group_element_witness :
    ShapeDataset.getitem imageOpsNat (fun q => q.length) false
        ⟨"d", ["chair.obj_0.0336_-0.1523_-0.5616_-0.8126.jpg"], none⟩ 0 =
      Except.ok ("chair", ⟨DType.float32, 4⟩, 5) := by
  have hq : filename_to_quaternion
      ("chair.obj_0.0336_-0.1523_-0.5616_-0.8126.jpg" : String).data =
      Except.ok ((reFindallQuat
        ("chair.obj_0.0336_-0.1523_-0.5616_-0.8126.jpg" : String).data).map
          quatFloatVal) := by
    unfold filename_to_quaternion
    rw [if_pos (by decide)]
  have h := C3_getitem_group_element imageOpsNat (fun q => q.length) false
    ⟨"d", ["chair.obj_0.0336_-0.1523_-0.5616_-0.8126.jpg"], none⟩ 0
    ("chair.obj_0.0336_-0.1523_-0.5616_-0.8126.jpg") rfl _ hq ("chair") rfl
  rw [h]
  rfl

/-! ## The Rodrigues rotation of `Encoder.forward`
(supervised_experiment.py lines 114-121)

`rodrigues` lives in `lie_vae.lie_tools`, which is not under `src/`; it is
modelled from the spec as the Rodrigues formula
`R = I + sin(t) K + (1 - cos(t)) K^2` for the normalised skew matrix `K` of
the algebra vector, over the reals. -/

open Matrix

/-- The skew-symmetric matrix of a 3-vector (`map2LieAlgebra`). -/
def skewMat (u : Fin 3 → ℝ) : Matrix (Fin 3) (Fin 3) ℝ :=
  Matrix.of ![![0, -u 2, u 1], ![u 2, 0, -u 0], ![-u 1, u 0, 0]]

theorem skewMat_transpose (u : Fin 3 → ℝ) : (skewMat u)ᵀ = -skewMat u := by
  ext i j
  fin_cases i <;> fin_cases j <;>
    simp [skewMat, Matrix.transpose_apply]

theorem skew_cube_left (u : Fin 3 → ℝ) :
    skewMat u * (skewMat u * skewMat u) =
      (-(u 0 ^ 2 + u 1 ^ 2 + u 2 ^ 2)) • skewMat u := by
  ext i j
  fin_cases i <;> fin_cases j <;>
    (simp [skewMat, Matrix.mul_apply, Fin.sum_univ_three]; ring)

theorem skew_cube_right (u : Fin 3 → ℝ) :
    (skewMat u * skewMat u) * skewMat u =
      (-(u 0 ^ 2 + u 1 ^ 2 + u 2 ^ 2)) • skewMat u := by
  ext i j
  fin_cases i <;> fin_cases j <;>
    (simp [skewMat, Matrix.mul_apply, Fin.sum_univ_three]; ring)

theorem skew_fourth (u : Fin 3 → ℝ) :
    (skewMat u * skewMat u) * (skewMat u * skewMat u) =
      (-(u 0 ^ 2 + u 1 ^ 2 + u 2 ^ 2)) • (skewMat u * skewMat u) := by
  ext i j
  fin_cases i <;> fin_cases j <;>
    (simp [skewMat, Matrix.mul_apply, Fin.sum_univ_three]; ring)

theorem rot_transpose (u : Fin 3 → ℝ) (a b : ℝ) :
    (1 + a • skewMat u + b • (skewMat u * skewMat u))ᵀ =
      1 - a • skewMat u + b • (skewMat u * skewMat u) := by
  simp [Matrix.transpose_add, Matrix.transpose_smul, Matrix.transpose_one,
    Matrix.transpose_mul, skewMat_transpose, Matrix.neg_mul, Matrix.mul_neg,
    sub_eq_add_neg]

theorem rot_orthogonal (u : Fin 3 → ℝ) (a b : ℝ)
    (hu : u 0 ^ 2 + u 1 ^ 2 + u 2 ^ 2 = 1) (hab : a ^ 2 + b ^ 2 = 2 * b) :
    (1 + a • skewMat u + b • (skewMat u * skewMat u))ᵀ *
      (1 + a • skewMat u + b • (skewMat u * skewMat u)) = 1 := by
  rw [rot_transpose]
  set K := skewMat u with hK
  have h1 := skew_cube_left u
  have h2 := skew_cube_right u
  have h3 := skew_fourth u
  rw [← hK] at h1 h2 h3
  simp only [add_mul, sub_mul, mul_add, one_mul, mul_one, smul_mul_assoc,
    mul_smul_comm, smul_smul, h1, h2, h3]
  match_scalars
  all_goals try ring
  all_goals linear_combination -hab - b ^ 2 * hu

theorem rot_det (u : Fin 3 → ℝ) (a b : ℝ)
    (hu : u 0 ^ 2 + u 1 ^ 2 + u 2 ^ 2 = 1) (hab : a ^ 2 + b ^ 2 = 2 * b) :
    (1 + a • skewMat u + b • (skewMat u * skewMat u)).det = 1 := by
  rw [Matrix.det_fin_three]
  simp only [Matrix.add_apply, Matrix.smul_apply, Matrix.one_apply,
    Matrix.mul_apply, Fin.sum_univ_three, skewMat, Matrix.of_apply,
    Matrix.cons_val', Matrix.cons_val_zero, Matrix.cons_val_one,
    Matrix.head_cons, Matrix.empty_val', Matrix.cons_val_fin_one,
    Matrix.head_fin_const, smul_eq_mul]
  norm_num [Fin.ext_iff]
  linear_combination ((u 0 ^ 2 + u 1 ^ 2 + u 2 ^ 2) * b ^ 2) * hu +
    (u 0 ^ 2 + u 1 ^ 2 + u 2 ^ 2) * hab

/-- Modelled from the spec: `rodrigues` of `lie_vae.lie_tools` (not under
`src/`): the exponential of the algebra vector `v` by the Rodrigues formula,
with `t = |v|` and the normalised axis `v / t` (the zero vector maps to the
identity, all Rodrigues coefficients vanishing at `t = 0`). -/
noncomputable def rodrigues (v : Fin 3 → ℝ) : Matrix (Fin 3) (Fin 3) ℝ :=
  let θ := Real.sqrt (v 0 ^ 2 + v 1 ^ 2 + v 2 ^ 2)
  let u := fun i => v i / θ
  1 + Real.sin θ • skewMat u + (1 - Real.cos θ) • (skewMat u * skewMat u)

/-- The Rodrigues matrix of every algebra vector is a rotation. -/
theorem rodrigues_rotation (v : Fin 3 → ℝ) :
    (rodrigues v)ᵀ * rodrigues v = 1 ∧ (rodrigues v).det = 1 := by
  by_cases hv : v 0 ^ 2 + v 1 ^ 2 + v 2 ^ 2 = 0
  · have h0 : Real.sqrt (v 0 ^ 2 + v 1 ^ 2 + v 2 ^ 2) = 0 := by
      rw [hv, Real.sqrt_zero]
    have hR : rodrigues v = 1 := by
      unfold rodrigues
      rw [h0]
      simp
    rw [hR]
    constructor
    · simp
    · simp
  · have hpos : 0 < v 0 ^ 2 + v 1 ^ 2 + v 2 ^ 2 := by
      rcases lt_or_eq_of_le (by positivity : (0:ℝ) ≤ v 0 ^ 2 + v 1 ^ 2 + v 2 ^ 2) with h | h
      · exact h
      · exact absurd h.symm hv
    have hθ : 0 < Real.sqrt (v 0 ^ 2 + v 1 ^ 2 + v 2 ^ 2) := Real.sqrt_pos.mpr hpos
    have hθ2 : Real.sqrt (v 0 ^ 2 + v 1 ^ 2 + v 2 ^ 2) ^ 2 =
        v 0 ^ 2 + v 1 ^ 2 + v 2 ^ 2 := Real.sq_sqrt (le_of_lt hpos)
    have hu : (fun i => v i / Real.sqrt (v 0 ^ 2 + v 1 ^ 2 + v 2 ^ 2)) 0 ^ 2 +
        (fun i => v i / Real.sqrt (v 0 ^ 2 + v 1 ^ 2 + v 2 ^ 2)) 1 ^ 2 +
        (fun i => v i / Real.sqrt (v 0 ^ 2 + v 1 ^ 2 + v 2 ^ 2)) 2 ^ 2 = 1 := by
      simp only [div_pow]
      rw [div_add_div_same, div_add_div_same, hθ2, div_self (ne_of_gt hpos)]
    have hab : Real.sin (Real.sqrt (v 0 ^ 2 + v 1 ^ 2 + v 2 ^ 2)) ^ 2 +
        (1 - Real.cos (Real.sqrt (v 0 ^ 2 + v 1 ^ 2 + v 2 ^ 2))) ^ 2 =
        2 * (1 - Real.cos (Real.sqrt (v 0 ^ 2 + v 1 ^ 2 + v 2 ^ 2))) := by
      have := Real.sin_sq_add_cos_sq (Real.sqrt (v 0 ^ 2 + v 1 ^ 2 + v 2 ^ 2))
      linear_combination this
    exact ⟨rot_orthogonal _ _ _ hu hab, rot_det _ _ _ hu hab⟩

/-- Model of `Encoder.forward` (lines 114-121) per sample, abstracted over the learned
convolutional features `x` (the `nout`-wide output at the single spatial
position): the first three features form the Lie-algebra vector, the
remaining ones the id code, and the rotation returned is
`rodrigues(algebra)`. -/
noncomputable def Encoder.forwardRot (x : Nat → ℝ) :
    Matrix (Fin 3) (Fin 3) ℝ × (Nat → ℝ) :=
  (rodrigues (fun i : Fin 3 => x i.val), fun j => x (3 + j))

/-- C4: the latent rotation the Encoder produces always lies in SO(3): its
rotation component is `rodrigues` of the first three convolutional output
features, and for every feature vector that matrix is orthogonal with
determinant 1. -/
theorem C4_encoder_rotation (x : Nat → ℝ) :
    (Encoder.forwardRot x).1 = rodrigues (fun i : Fin 3 => x i.val) ∧
    ((Encoder.forwardRot x).1)ᵀ * (Encoder.forwardRot x).1 = 1 ∧
    ((Encoder.forwardRot x).1).det = 1 := by
  refine ⟨rfl, ?_, ?_⟩
  · exact (rodrigues_rotation (fun i : Fin 3 => x i.val)).1
  · exact (rodrigues_rotation (fun i : Fin 3 => x i.val)).2
